import Mathlib

/-!
Shallow embedding of the transaction classification and spending-aggregation
engine of the Finan-App repository (src/classifier.py, src/config.py,
src/database.py, src/analytics.py, src/ui.py).

Python strings are embedded as Lean `String`, Python numbers (int/float
amounts) as `ℚ`, fallible operations as `Except String`.  `None` arguments
are embedded as `Option.none`.
-/

deriving instance DecidableEq for Except

namespace FinanApp

/-! ## String helpers

Embeddings of the Python string operations used by the classifier:
`keyword in desc` (substring containment), `str.lower()`, `str.strip()`. -/

/-- Embeds the check that the first list is an initial segment of the second
(the base step of Python substring containment). -/
def leadsWith : List Char → List Char → Bool
  | [], _ => true
  | _ :: _, [] => false
  | a :: as, b :: bs => a == b && leadsWith as bs

/-- Embeds Python `kw in s` on the underlying character lists: contiguous
substring containment. -/
def containsSubL (kw : List Char) : List Char → Bool
  | [] => leadsWith kw []
  | b :: bs => leadsWith kw (b :: bs) || containsSubL kw bs

/-- Python `kw in s` for strings. -/
def containsSub (kw s : String) : Bool :=
  containsSubL kw.data s.data

/-- Python `s.lower()` (character-wise; the keyword set is ASCII). -/
def lowerStr (s : String) : String :=
  ⟨s.data.map Char.toLower⟩

/-- Python `s.strip()`: remove leading and trailing whitespace. -/
def stripStr (s : String) : String :=
  ⟨((s.data.dropWhile Char.isWhitespace).reverse.dropWhile Char.isWhitespace).reverse⟩

/-- The normalized description used by the classifier:
`description.lower().strip()` (src/classifier.py line 31). -/
def normalizeDesc (s : String) : String :=
  stripStr (lowerStr s)

/-! ## Classifier (src/config.py lines 8-17, src/classifier.py) -/

/-- The ordered category rule set, `CATEGORIES` in src/config.py.  Python
dicts preserve insertion order, so the embedding is an association list in
the source order. -/
def CATEGORIES : List (String × List String) := [
  ("food", ["restaurant", "groceries", "cafe", "food", "eat", "dining", "supermarket", "coffee"]),
  ("transport", ["uber", "taxi", "bus", "train", "fuel", "petrol", "metro", "transport", "gas"]),
  ("entertainment", ["movie", "netflix", "concert", "game", "entertainment", "cinema"]),
  ("shopping", ["mall", "clothes", "amazon", "shopping", "store", "fashion"]),
  ("bills", ["electricity", "water", "internet", "bill", "utility", "rent", "mortgage"]),
  ("healthcare", ["hospital", "doctor", "pharmacy", "medical", "health"]),
  ("education", ["course", "book", "tuition", "school", "university"]),
  ("miscellaneous", ["misc", "other", "miscellaneous", "gift", "donation"])]

/-- Whether any keyword of a category matches the normalized description
(`any(keyword in desc for keyword in keywords)`, src/classifier.py line 38). -/
def keywordHit (kws : List String) (desc : String) : Bool :=
  kws.any fun kw => containsSub kw desc

/-- The rule-based classification loop of src/classifier.py lines 37-39:
return the first category whose keyword list hits the description. -/
def firstMatch : List (String × List String) → String → Option String
  | [], _ => none
  | (c, kws) :: rest, desc =>
      if keywordHit kws desc then some c else firstMatch rest desc

/-- `ExpenseClassifier.categorize` (src/classifier.py lines 7-47).
`description = None` and `amount = None` are embedded as `Option.none`;
non-string / non-number arguments are excluded by typing. -/
def categorize (description : Option String) (amount : Option ℚ) : Except String String :=
  match description with
  | none => .error "Description must be a non-empty string"
  | some d =>
    match amount with
    | none => .error "Amount must be a number"
    | some a =>
      if a ≤ 0 then .error "Amount must be positive"
      else
        let desc := normalizeDesc d
        if desc = "" then .error "Description cannot be empty after stripping whitespace"
        else
          match firstMatch CATEGORIES desc with
          | some c => .ok c
          | none =>
              .ok (if 300 < a then "shopping" else if a < 30 then "miscellaneous" else "general")

/-! ## Ledger model (src/database.py) -/

/-- A row of the `transactions` table (src/database.py lines 29-43).  The
`currency` (constant default) and `created_at` (wall-clock timestamp) columns
are omitted: no claim mentions them.  `id` is the store-assigned key. -/
structure Txn where
  id : Nat
  user_id : Int
  description : String
  amount : ℚ
  category : String
  date : String
  type : String
  receipt_image : Option String
deriving DecidableEq

/-- Python truthiness test `not x` for optional string arguments: `None` and
the empty string are falsy. -/
def pyFalsy : Option String → Bool
  | none => true
  | some s => s == ""

/-- Numeric value of a digit string. -/
def digitsToNat (l : List Char) : Nat :=
  l.foldl (fun acc c => acc * 10 + (c.toNat - 48)) 0

/-- Gregorian leap-year rule used by `datetime`. -/
def isLeapYear (y : Nat) : Bool :=
  y % 4 == 0 && (y % 100 != 0 || y % 400 == 0)

/-- Days in a month, for `datetime` day validation. -/
def daysInMonth (y m : Nat) : Nat :=
  if m = 2 then (if isLeapYear y then 29 else 28)
  else if m = 4 ∨ m = 6 ∨ m = 9 ∨ m = 11 then 30
  else 31

/-- Split a character list at every occurrence of a separator. -/
def splitOnChar (sep : Char) : List Char → List (List Char)
  | [] => [[]]
  | c :: cs =>
      match splitOnChar sep cs with
      | [] => if c == sep then [[], [c]] else [[c]]
      | h :: t => if c == sep then [] :: h :: t else (c :: h) :: t

/-- Embeds `datetime.strptime(date, "%Y-%m-%d")` succeeding: a 4-digit year
(at least 1), a 1-2 digit month in 1..12, and a 1-2 digit day valid for that
month and year, with nothing left over. -/
def validDate (s : String) : Bool :=
  match splitOnChar (Char.ofNat 45) s.data with
  | [y, m, d] =>
      y.length == 4 && y.all Char.isDigit &&
      (m.length == 1 || m.length == 2) && m.all Char.isDigit &&
      (d.length == 1 || d.length == 2) && d.all Char.isDigit &&
      (let yn := digitsToNat y
       let mn := digitsToNat m
       let dn := digitsToNat d
       1 ≤ yn && 1 ≤ mn && mn ≤ 12 && 1 ≤ dn && dn ≤ daysInMonth yn mn)
  | _ => false

/-- Lexicographic order on character lists by codepoint, the order SQLite
uses to compare TEXT date columns. -/
def strLeL : List Char → List Char → Bool
  | [], _ => true
  | _ :: _, [] => false
  | a :: as, b :: bs =>
      if a.toNat < b.toNat then true
      else if b.toNat < a.toNat then false
      else strLeL as bs

/-- Lexicographic string order (SQLite TEXT comparison). -/
def strLe (a b : String) : Bool :=
  strLeL a.data b.data

/-- The WHERE clause built by `FinanceDatabase.get_transactions`
(src/database.py lines 169-183): mandatory `user_id` scope plus optional
`date >=`, `date <=`, `category =`, `type =` filters. -/
def txnFilter (user_id : Int) (start_date end_date category ty : Option String) (t : Txn) : Bool :=
  t.user_id == user_id &&
  (pyFalsy start_date || strLe (start_date.getD "") t.date) &&
  (pyFalsy end_date || strLe t.date (end_date.getD "")) &&
  (pyFalsy category || t.category == category.getD "") &&
  (pyFalsy ty || t.type == ty.getD "")

/-- `FinanceDatabase.get_transactions` (src/database.py lines 145-190).
The source additionally orders the result by date descending; the ordering
is omitted here because every property below is invariant under row
permutation (filters, groupings and sums only). -/
def get_transactions (ledger : List Txn) (user_id : Int)
    (start_date end_date category ty : Option String) : Except String (List Txn) :=
  if user_id ≤ 0 then .error "user_id must be a positive integer"
  else if !pyFalsy start_date && !validDate (start_date.getD "") then
    .error "Start date must be in YYYY-MM-DD format"
  else if !pyFalsy end_date && !validDate (end_date.getD "") then
    .error "End date must be in YYYY-MM-DD format"
  else if !pyFalsy ty && !(ty == some "income" || ty == some "expense") then
    .error "Type must be income or expense"
  else .ok (ledger.filter (txnFilter user_id start_date end_date category ty))

/-! ## Insight engine (src/database.py lines 192-233, src/app.py lines 151-182) -/

/-- The date-range defaulting step of `get_spending_insights`
(src/database.py lines 197-201): `if not start_date or not end_date:` replace
BOTH bounds with the first day of the current month and today.  The two
clock-derived strings are passed in as `defaultStart` and `today`. -/
def resolveRange (defaultStart today : String) (start_date end_date : Option String) :
    String × String :=
  if pyFalsy start_date || pyFalsy end_date then (defaultStart, today)
  else (start_date.getD "", end_date.getD "")

/-- The result dictionary of `get_spending_insights`: total spending, the
per-category (total, count) rows, and the per-month totals. -/
structure InsightSummary where
  total_spending : ℚ
  category_breakdown : List (String × ℚ × Nat)
  monthly_trend : List (String × ℚ)
deriving DecidableEq

/-- Round to the nearest integer with ties to even, the numpy `rint`
semantics behind pandas rounding. -/
def rint (q : ℚ) : ℤ :=
  if q - ⌊q⌋ < 1/2 then ⌊q⌋
  else if 1/2 < q - ⌊q⌋ then ⌊q⌋ + 1
  else if ⌊q⌋ % 2 = 0 then ⌊q⌋ else ⌊q⌋ + 1

/-- Rounding to 2 decimal places (`.round(2)` on the aggregated column):
scale by 100, round to the nearest integer with ties to even, scale back. -/
def round2 (q : ℚ) : ℚ :=
  (rint (q * 100) : ℚ) / 100

/-- `pd.to_datetime(df.date).dt.to_period(M)` on a `YYYY-MM-DD` string:
the `YYYY-MM` prefix. -/
def monthOf (date : String) : String :=
  ⟨date.data.take 7⟩

/-- Sum of amounts of the rows with the given category (the `sum` aggregate of
the `groupby(category)`). -/
def categorySum (c : String) (l : List Txn) : ℚ :=
  ((l.filter fun t => t.category == c).map Txn.amount).sum

/-- Row count of the rows with the given category (the `count` aggregate of
the `groupby(category)`). -/
def categoryCount (c : String) (l : List Txn) : Nat :=
  (l.filter fun t => t.category == c).length

/-- Sum of amounts of the rows in the given `YYYY-MM` month (the monthly
trend aggregate). -/
def monthSum (m : String) (l : List Txn) : ℚ :=
  ((l.filter fun t => monthOf t.date == m).map Txn.amount).sum

/-- The aggregation step of `get_spending_insights` on a non-empty fetched
frame (src/database.py lines 215-231): the category `groupby` with
sum-rounded-to-2 and count, the monthly trend `groupby`, and the un-rounded
total.  Group keys are enumerated in order of appearance; the source leaves
the group order to pandas and no property depends on it. -/
def computeInsights (df : List Txn) : InsightSummary :=
  ⟨(df.map Txn.amount).sum,
   ((df.map Txn.category).dedup).map fun c => (c, round2 (categorySum c df), categoryCount c df),
   ((df.map fun t => monthOf t.date).dedup).map fun m => (m, monthSum m df)⟩

/-- `FinanceDatabase.get_spending_insights` (src/database.py lines 192-233):
validate the owner id, default the date range, fetch the expense rows in
range, and aggregate. -/
def get_spending_insights (ledger : List Txn) (user_id : Int) (defaultStart today : String)
    (start_date end_date : Option String) : Except String InsightSummary :=
  if user_id ≤ 0 then .error "user_id must be a positive integer"
  else
    let r := resolveRange defaultStart today start_date end_date
    match get_transactions ledger user_id (some r.1) (some r.2) none (some "expense") with
    | .error e => .error ("Failed to get spending insights: " ++ e)
    | .ok df =>
      if df.isEmpty then .ok ⟨0, [], []⟩
      else .ok (computeInsights df)

/-! ## Month-over-month comparison (src/analytics.py lines 174-203) -/

/-- What the monthly-comparison insight card of `show_advanced_analytics`
renders: a percentage change, the no-prior-data notice, or nothing. -/
inductive MonthComparison where
  | pctChange (p : ℚ)
  | noPriorData
  | silent
deriving DecidableEq

/-- Spending of one calendar month among the fetched transactions
(src/analytics.py lines 177-185): expense rows whose date falls in the
given `YYYY-MM` period. -/
def monthSpending (transactions : List Txn) (month : String) : ℚ :=
  ((transactions.filter fun t => t.type == "expense" && monthOf t.date == month).map
    Txn.amount).sum

/-- The branch structure of src/analytics.py lines 187-203: divide only when
`last_spending > 0`; otherwise report no prior data when the current month
has spending, else render nothing. -/
def monthlyComparison (current_spending last_spending : ℚ) : MonthComparison :=
  if 0 < last_spending then
    .pctChange ((current_spending - last_spending) / last_spending * 100)
  else if 0 < current_spending then .noPriorData
  else .silent

/-! ## Transaction service (src/database.py lines 106-143) -/

/-- `FinanceDatabase.add_transaction` (src/database.py lines 106-143): the
validation sequence, the classifier fallback when no category is supplied,
and the insert.  `nextId` is the store-assigned autoincrement key; the new
ledger is returned only on success, so a failed call leaves the ledger as it
was. -/
def add_transaction (ledger : List Txn) (nextId : Nat) (user_id : Int) (description : String)
    (amount : ℚ) (date : String) (type : String) (category : Option String)
    (receipt_image : Option String) : Except String (List Txn) :=
  if user_id ≤ 0 then .error "user_id must be a positive integer"
  else if description == "" then .error "Description must be a non-empty string"
  else if amount ≤ 0 then .error "Amount must be a positive number"
  else if !validDate date then .error "Date must be in YYYY-MM-DD format"
  else if !(type == "income" || type == "expense") then .error "Type must be income or expense"
  else
    match
      (if pyFalsy category then categorize (some description) (some amount)
       else .ok (category.getD "")) with
    | .error e => .error ("Failed to categorize transaction: " ++ e)
    | .ok cat =>
        .ok (ledger ++ [⟨nextId, user_id, description, amount, cat, date, type, receipt_image⟩])

/-- Modelled from the spec: `FinanceDatabase.delete_transaction` is invoked
from src/ui.py (lines 482 and 527) but its definition is not among the source
files.  Spec sections 4.2 and 6: `delete(owner_id, transaction_id)` removes
the transaction only when it exists and belongs to `owner_id`, and fails with
a NotFoundError otherwise; spec section 8 adds that a delete by a non-owner
leaves the transaction retrievable by its real owner.  The ledger is returned
alongside the result so the unchanged-on-failure state is explicit. -/
def delete_transaction (ledger : List Txn) (user_id : Int) (transaction_id : Nat) :
    Except String Unit × List Txn :=
  if (ledger.filter fun t => t.id == transaction_id && t.user_id == user_id).isEmpty then
    (.error "Transaction not found", ledger)
  else
    (.ok (), ledger.filter fun t => !(t.id == transaction_id && t.user_id == user_id))

/-- Whether an `Except` result is a success. -/
def exIsOk : Except String String → Bool
  | .ok _ => true
  | .error _ => false

/-- A sub-cent amount, 0.006, as stored by the counterexample rows.  It is
not a rounding midpoint, so every round-to-nearest convention sends it to
0.01. -/
def subcentAmount : ℚ := ⟨3, 500, by decide, by decide⟩

/-- Ledger of two same-owner expense rows of 0.006 in distinct categories,
refuting the aggregate-level exactness of C6 for amounts finer than whole
cents. -/
def subcentLedger : List Txn := [
  ⟨1, 1, "first item", subcentAmount, "a", "2024-01-05", "expense", none⟩,
  ⟨2, 1, "second item", subcentAmount, "b", "2024-01-06", "expense", none⟩]

/-! ## Sanity checks: concrete evaluations of the embedded operations -/

example : categorize (some "Dinner at restaurant") (some 65) = .ok "food" := by decide
example : categorize (some "random text") (some 100) = .ok "general" := by decide
example : categorize (some "random text") (some 500) = .ok "shopping" := by decide
example : categorize (some "random text") (some 10) = .ok "miscellaneous" := by decide
example : categorize (some " ") (some 10) =
    .error "Description cannot be empty after stripping whitespace" := by decide
example : categorize (some "") (some 10) =
    .error "Description cannot be empty after stripping whitespace" := by decide
example : categorize none (some 10) = .error "Description must be a non-empty string" := rfl

example : validDate "2024-01-15" = true := by decide
example : validDate "2024-02-30" = false := by decide
example : validDate "2024-2-29" = true := by decide
example : validDate "2023-02-29" = false := by decide
example : validDate "not-a-date" = false := by decide
example : validDate "" = false := by decide

example :
    add_transaction [] 1 1 "Groceries at Walmart" 0 "2024-01-15" "expense" (some "food") none =
      .error "Amount must be a positive number" := by decide

example :
    add_transaction [] 1 1 "Groceries at Walmart" ⟨1, 100, by decide, by decide⟩ "2024-01-15"
        "expense" (some "food") none =
      .ok [⟨1, 1, "Groceries at Walmart", ⟨1, 100, by decide, by decide⟩, "food", "2024-01-15",
        "expense", none⟩] := by decide

example :
    add_transaction [] 1 1 "xyzzy" 40 "2024-01-15" "expense" none none =
      .ok [⟨1, 1, "xyzzy", 40, "general", "2024-01-15", "expense", none⟩] := by decide

/-! ## Plumbing lemmas -/

/-- The classification loop returns the category at index `i` when that
category has a keyword hit and no earlier category does. -/
theorem firstMatch_eq_get (l : List (String × List String)) (desc : String) :
    ∀ (i : Nat) (hi : i < l.length), keywordHit (l.get ⟨i, hi⟩).2 desc = true →
      (∀ j (hj : j < i), keywordHit (l.get ⟨j, by omega⟩).2 desc = false) →
      firstMatch l desc = some (l.get ⟨i, hi⟩).1 := by
  induction l with
  | nil => intro i hi; exact absurd hi (Nat.not_lt_zero i)
  | cons p rest ih =>
    obtain ⟨c, kws⟩ := p
    intro i hi hm hprev
    cases i with
    | zero =>
      simp only [List.get] at hm ⊢
      simp [firstMatch, hm]
    | succ i2 =>
      have h0 : keywordHit kws desc = false := hprev 0 (Nat.succ_pos i2)
      simp only [List.get] at hm ⊢
      rw [firstMatch, if_neg (by simp [h0])]
      exact ih i2 (Nat.lt_of_succ_lt_succ hi) hm
        (fun j hj => hprev (j + 1) (Nat.succ_lt_succ hj))

/-- The classification loop finds nothing when no category has a keyword
hit. -/
theorem firstMatch_eq_none (l : List (String × List String)) (desc : String)
    (h : ∀ p ∈ l, keywordHit p.2 desc = false) : firstMatch l desc = none := by
  induction l with
  | nil => rfl
  | cons p rest ih =>
    obtain ⟨c, kws⟩ := p
    rw [firstMatch, if_neg (by simp [h (c, kws) (List.mem_cons_self _ _)])]
    exact ih fun q hq => h q (List.mem_cons_of_mem _ hq)

/-- Unfolding lemma for `get_spending_insights` once the fetch result is
known. -/
theorem get_spending_insights_ok (ledger : List Txn) (user_id : Int) (dS dT : String)
    (s e : Option String) (df : List Txn) (h1 : ¬ user_id ≤ 0)
    (h2 : get_transactions ledger user_id (some (resolveRange dS dT s e).1)
      (some (resolveRange dS dT s e).2) none (some "expense") = .ok df) :
    get_spending_insights ledger user_id dS dT s e =
      if df.isEmpty then .ok ⟨0, [], []⟩ else .ok (computeInsights df) := by
  unfold get_spending_insights
  rw [if_neg h1]
  simp only [h2]

/-- With a valid owner and two valid date bounds, the expense fetch of the
insight engine succeeds and returns exactly the filtered rows. -/
theorem get_transactions_expense_ok (ledger : List Txn) (user_id : Int) (s0 e0 : String)
    (h1 : ¬ user_id ≤ 0) (hs : validDate s0 = true) (he : validDate e0 = true) :
    get_transactions ledger user_id (some s0) (some e0) none (some "expense") =
      .ok (ledger.filter (txnFilter user_id (some s0) (some e0) none (some "expense"))) := by
  rw [get_transactions, if_neg h1, if_neg (by simp [hs]), if_neg (by simp [he]),
    if_neg (by simp)]

/-- Pointwise sums distribute over a mapped list. -/
theorem sum_map_add_q {α : Type} (l : List α) (f g : α → ℚ) :
    (l.map fun x => f x + g x).sum = (l.map f).sum + (l.map g).sum := by
  induction l with
  | nil => simp
  | cons a l ih =>
    simp only [List.map_cons, List.sum_cons, ih]
    ring

/-- Summing an indicator over a duplicate-free list containing the marked
element yields the marked value once. -/
theorem sum_map_ite_single (cats : List String) (hnd : cats.Nodup) (c : String)
    (hc : c ∈ cats) (x : ℚ) :
    (cats.map fun c2 => if c = c2 then x else 0).sum = x := by
  induction cats with
  | nil => exact absurd hc (List.not_mem_nil c)
  | cons a l ih =>
    rcases List.mem_cons.mp hc with h | h
    · subst h
      simp only [List.map_cons, List.sum_cons]
      have hz : (l.map fun c2 => if c = c2 then x else 0).sum = 0 := by
        apply List.sum_eq_zero
        intro q hq
        obtain ⟨c2, hc2, rfl⟩ := List.mem_map.mp hq
        have hne : ¬ c = c2 := by
          intro he
          cases he
          exact (List.nodup_cons.mp hnd).1 hc2
        rw [if_neg hne]
      rw [if_true, hz, add_zero]
    · have hca : ¬ c = a := by
        intro he
        cases he
        exact (List.nodup_cons.mp hnd).1 h
      simp only [List.map_cons, List.sum_cons]
      rw [if_neg hca, zero_add]
      exact ih (List.nodup_cons.mp hnd).2 h

/-- Peeling one transaction off a per-category sum. -/
theorem categorySum_cons (c : String) (t : Txn) (l : List Txn) :
    categorySum c (t :: l) = (if t.category = c then t.amount else 0) + categorySum c l := by
  rw [categorySum, categorySum]
  by_cases h : t.category = c
  · rw [List.filter_cons_of_pos (by simp [h]), List.map_cons, List.sum_cons, if_pos h]
  · rw [List.filter_cons_of_neg (by simp [h]), if_neg h, zero_add]

/-- The per-category sums over a duplicate-free cover of the occurring
categories partition the total sum. -/
theorem sum_categorySum (l : List Txn) (cats : List String) (hnd : cats.Nodup)
    (hall : ∀ t ∈ l, t.category ∈ cats) :
    (cats.map fun c => categorySum c l).sum = (l.map Txn.amount).sum := by
  induction l with
  | nil =>
    rw [List.map_nil, List.sum_nil]
    apply List.sum_eq_zero
    intro q hq
    obtain ⟨c, hc, rfl⟩ := List.mem_map.mp hq
    rfl
  | cons t l ih =>
    have h1 : (cats.map fun c => categorySum c (t :: l)).sum =
        (cats.map fun c => (if t.category = c then t.amount else 0) + categorySum c l).sum := by
      congr 1
      exact List.map_congr_left fun c hc => categorySum_cons c t l
    rw [h1, sum_map_add_q,
      sum_map_ite_single cats hnd t.category (hall t (List.mem_cons_self t l)) t.amount,
      ih fun t2 h2 => hall t2 (List.mem_cons_of_mem t h2),
      List.map_cons, List.sum_cons]

/-- A sum of whole-cent rationals is a whole-cent rational. -/
theorem sum_cents (l : List ℚ) (h : ∀ q ∈ l, ∃ n : ℤ, q = n / 100) :
    ∃ n : ℤ, l.sum = n / 100 := by
  induction l with
  | nil => exact ⟨0, by simp⟩
  | cons a l ih =>
    obtain ⟨na, ha⟩ := h a (List.mem_cons_self a l)
    obtain ⟨nl, hl⟩ := ih fun q hq => h q (List.mem_cons_of_mem a hq)
    refine ⟨na + nl, ?_⟩
    rw [List.sum_cons, ha, hl]
    push_cast
    ring

/-- Rounding with ties to even fixes the integers. -/
theorem rint_intCast (n : ℤ) : rint (n : ℚ) = n := by
  rw [rint, Int.floor_intCast, sub_self, if_pos (by norm_num)]

/-- Rounding to 2 decimal places is the identity on whole-cent rationals. -/
theorem round2_cents (q : ℚ) (h : ∃ n : ℤ, q = n / 100) : round2 q = q := by
  obtain ⟨n, rfl⟩ := h
  rw [round2, div_mul_cancel₀ _ (by norm_num : (100 : ℚ) ≠ 0), rint_intCast]

/-! ## Claim theorems -/

/-- Claim C1: for every description whose normalized form is non-empty and
contains a keyword of the category at position `i` of the rule set but no
keyword of any earlier category, and every positive amount, `categorize`
returns that category — the keyword match wins regardless of the amount. -/
theorem categorize_keyword_priority (d : String) (a : ℚ) (i : Nat)
    (hi : i < CATEGORIES.length) (ha : 0 < a) (hne : normalizeDesc d ≠ "")
    (hmatch : keywordHit (CATEGORIES.get ⟨i, hi⟩).2 (normalizeDesc d) = true)
    (hprev : ∀ j (hj : j < i),
      keywordHit (CATEGORIES.get ⟨j, by omega⟩).2 (normalizeDesc d) = false) :
    categorize (some d) (some a) = .ok (CATEGORIES.get ⟨i, hi⟩).1 := by
  simp only [categorize]
  rw [if_neg (not_le.mpr ha)]
  rw [if_neg hne, firstMatch_eq_get CATEGORIES (normalizeDesc d) i hi hmatch hprev]

/-- Witness for C1: "Dinner at restaurant" with amount 65.25 is classified
as food (rule index 0). -/
theorem categorize_keyword_priority_witness :
    categorize (some "Dinner at restaurant") (some ⟨261, 4, by decide, by decide⟩) =
      .ok "food" :=
  categorize_keyword_priority "Dinner at restaurant" ⟨261, 4, by decide, by decide⟩ 0
    (by decide) (by decide) (by decide) (by decide)
    (fun j hj => absurd hj (Nat.not_lt_zero j))

/-- Claim C2: on a valid description with no keyword hit in any category and
a positive amount, `categorize` falls back to the amount rule: `shopping`
above 300, `miscellaneous` below 30, `general` otherwise, with both
boundaries exclusive. -/
theorem categorize_amount_fallback (d : String) (a : ℚ) (hne : normalizeDesc d ≠ "")
    (hnm : ∀ p ∈ CATEGORIES, keywordHit p.2 (normalizeDesc d) = false) (ha : 0 < a) :
    (300 < a → categorize (some d) (some a) = .ok "shopping") ∧
    (a < 30 → categorize (some d) (some a) = .ok "miscellaneous") ∧
    (30 ≤ a → a ≤ 300 → categorize (some d) (some a) = .ok "general") := by
  have hbase : categorize (some d) (some a) =
      .ok (if 300 < a then "shopping" else if a < 30 then "miscellaneous" else "general") := by
    simp only [categorize]
    rw [if_neg (not_le.mpr ha)]
    rw [if_neg hne, firstMatch_eq_none CATEGORIES (normalizeDesc d) hnm]
  refine ⟨fun h => ?_, fun h => ?_, fun h1 h2 => ?_⟩
  · rw [hbase, if_pos h]
  · have h3 : ¬ 300 < a := by
      intro hc
      exact absurd (lt_trans hc h) (by norm_num)
    rw [hbase, if_neg h3, if_pos h]
  · rw [hbase, if_neg (not_lt.mpr h2), if_neg (not_lt.mpr h1)]

/-- Witness for C2: "random text" matches no keyword; at the boundary amount
300 the result is general (the 300 threshold is exclusive). -/
theorem categorize_amount_fallback_witness :
    categorize (some "random text") (some 300) = .ok "general" :=
  (categorize_amount_fallback "random text" 300 (by decide) (by decide)
    (by decide)).2.2 (by norm_num) (by norm_num)

/-- Claim C3: `categorize` fails (returns no category) exactly when the
description is absent or empty after lowercasing and stripping, or the
amount is absent or not strictly positive. -/
theorem categorize_error_iff (d : Option String) (a : Option ℚ) :
    exIsOk (categorize d a) = false ↔
      d = none ∨ a = none ∨ (∃ x, a = some x ∧ x ≤ 0) ∨
        (∃ s, d = some s ∧ normalizeDesc s = "") := by
  cases d with
  | none => simp [categorize, exIsOk]
  | some s =>
    cases a with
    | none => simp [categorize, exIsOk]
    | some x =>
      simp only [categorize]
      by_cases hx : x ≤ 0
      · rw [if_pos hx]
        simp [exIsOk, hx]
      · rw [if_neg hx]
        by_cases hs : normalizeDesc s = ""
        · rw [if_pos hs]
          simp [exIsOk, hs]
        · rw [if_neg hs]
          constructor
          · intro h
            exfalso
            cases hm : firstMatch CATEGORIES (normalizeDesc s) with
            | some c => rw [hm] at h; simp [exIsOk] at h
            | none => rw [hm] at h; simp [exIsOk] at h
          · rintro (h | h | ⟨x0, hx0, hle⟩ | ⟨s0, hs0, hemp⟩)
            · exact absurd h (by simp)
            · exact absurd h (by simp)
            · cases Option.some.inj hx0
              exact absurd hle hx
            · cases Option.some.inj hs0
              exact absurd hemp hs

/-- Counterexample for C4 as stated: with a start date supplied and the end
date unset, the source replaces BOTH bounds with the default range
(`if not start_date or not end_date:`), so the supplied start date is not
used. -/
theorem resolveRange_single_bound_cex :
    resolveRange "2025-10-01" "2025-10-12" (some "2024-01-01") none =
      ("2025-10-01", "2025-10-12") ∧
    ("2025-10-01" : String) ≠ "2024-01-01" := by
  constructor
  · rfl
  · decide

/-- Claim C4 as amended: the default range is applied when EITHER bound is
unset (or empty); both supplied non-empty bounds are used as given, and when
exactly one bound is supplied it is discarded in favor of the defaults. -/
theorem resolveRange_defaulting (dS dT : String) :
    (∀ s0 e0 : String, s0 ≠ "" → e0 ≠ "" →
      resolveRange dS dT (some s0) (some e0) = (s0, e0)) ∧
    (∀ e1 : Option String, resolveRange dS dT none e1 = (dS, dT)) ∧
    (∀ s1 : Option String, resolveRange dS dT s1 none = (dS, dT)) ∧
    (∀ s1 e1 : Option String, pyFalsy s1 = true ∨ pyFalsy e1 = true →
      resolveRange dS dT s1 e1 = (dS, dT)) := by
  refine ⟨fun s0 e0 hs he => ?_, fun e1 => ?_, fun s1 => ?_, fun s1 e1 h => ?_⟩
  · rw [resolveRange, if_neg]
    · rfl
    · simp [pyFalsy, hs, he]
  · rw [resolveRange, if_pos]
    rfl
  · rw [resolveRange, if_pos]
    simp [pyFalsy]
  · rw [resolveRange, if_pos]
    rcases h with h | h <;> simp [h]

/-- Witness for the amended C4: both bounds supplied are used; one bound
supplied is discarded for the defaults. -/
theorem resolveRange_defaulting_witness :
    resolveRange "2025-10-01" "2025-10-12" (some "2024-01-01") (some "2024-06-30") =
      ("2024-01-01", "2024-06-30") ∧
    resolveRange "2025-10-01" "2025-10-12" (some "2024-01-01") none =
      ("2025-10-01", "2025-10-12") :=
  ⟨(resolveRange_defaulting "2025-10-01" "2025-10-12").1 "2024-01-01" "2024-06-30"
      (by decide) (by decide),
   (resolveRange_defaulting "2025-10-01" "2025-10-12").2.2.1 none⟩

/-- Claim C7: the month-over-month comparison divides only when the previous
month total is positive; a zero previous total with positive current total
reports no prior data; two zero totals render nothing — so a percentage is
produced only with a non-zero divisor. -/
theorem monthly_comparison_branches (transactions : List Txn) (cur prev : String) :
    (0 < monthSpending transactions prev →
      monthlyComparison (monthSpending transactions cur) (monthSpending transactions prev) =
        .pctChange ((monthSpending transactions cur - monthSpending transactions prev) /
          monthSpending transactions prev * 100)) ∧
    (monthSpending transactions prev = 0 → 0 < monthSpending transactions cur →
      monthlyComparison (monthSpending transactions cur) (monthSpending transactions prev) =
        .noPriorData) ∧
    (monthSpending transactions prev = 0 → monthSpending transactions cur = 0 →
      monthlyComparison (monthSpending transactions cur) (monthSpending transactions prev) =
        .silent) ∧
    (∀ p, monthlyComparison (monthSpending transactions cur) (monthSpending transactions prev) =
      .pctChange p → 0 < monthSpending transactions prev) := by
  refine ⟨fun hl => ?_, fun hl hc => ?_, fun hl hc => ?_, fun p hp => ?_⟩
  · rw [monthlyComparison, if_pos hl]
  · rw [monthlyComparison, if_neg (by rw [hl]; exact lt_irrefl 0), if_pos hc]
  · rw [monthlyComparison, if_neg (by rw [hl]; exact lt_irrefl 0),
      if_neg (by rw [hc]; exact lt_irrefl 0)]
  · by_cases hl : 0 < monthSpending transactions prev
    · exact hl
    · rw [monthlyComparison, if_neg hl] at hp
      by_cases hc : 0 < monthSpending transactions cur
      · rw [if_pos hc] at hp
        exact absurd hp (by simp)
      · rw [if_neg hc] at hp
        exact absurd hp (by simp)

/-- Witness for C7: one expense in 2024-02 and none in 2024-01 yields the
no-prior-data notice. -/
theorem monthly_comparison_branches_witness :
    monthlyComparison
      (monthSpending [⟨1, 1, "Groceries", 50, "food", "2024-02-10", "expense", none⟩] "2024-02")
      (monthSpending [⟨1, 1, "Groceries", 50, "food", "2024-02-10", "expense", none⟩] "2024-01") =
      .noPriorData :=
  (monthly_comparison_branches
      [⟨1, 1, "Groceries", 50, "food", "2024-02-10", "expense", none⟩] "2024-02" "2024-01").2.1
    (by decide)
    (by
      have h : List.filter
          (fun t => t.type == "expense" && monthOf t.date == "2024-02")
          [(⟨1, 1, "Groceries", 50, "food", "2024-02-10", "expense", none⟩ : Txn)] =
          [⟨1, 1, "Groceries", 50, "food", "2024-02-10", "expense", none⟩] := by decide
      simp only [monthSpending, h, List.map_cons, List.map_nil, List.sum_cons, List.sum_nil]
      norm_num)

/-- Claim C8: `add_transaction` validates owner, description, amount, date
and kind in that fixed order, each failure yielding its own field-naming
error before anything is persisted, and a successful call appends exactly
one row built from the inputs. -/
theorem add_transaction_validation_order (ledger : List Txn) (nextId : Nat) (user_id : Int)
    (d : String) (a : ℚ) (date ty : String) (cat ri : Option String) :
    (user_id ≤ 0 →
      add_transaction ledger nextId user_id d a date ty cat ri =
        .error "user_id must be a positive integer") ∧
    (0 < user_id → d = "" →
      add_transaction ledger nextId user_id d a date ty cat ri =
        .error "Description must be a non-empty string") ∧
    (0 < user_id → d ≠ "" → a ≤ 0 →
      add_transaction ledger nextId user_id d a date ty cat ri =
        .error "Amount must be a positive number") ∧
    (0 < user_id → d ≠ "" → 0 < a → validDate date = false →
      add_transaction ledger nextId user_id d a date ty cat ri =
        .error "Date must be in YYYY-MM-DD format") ∧
    (0 < user_id → d ≠ "" → 0 < a → validDate date = true → ty ≠ "income" → ty ≠ "expense" →
      add_transaction ledger nextId user_id d a date ty cat ri =
        .error "Type must be income or expense") ∧
    (∀ out, add_transaction ledger nextId user_id d a date ty cat ri = .ok out →
      ∃ c, out = ledger ++ [⟨nextId, user_id, d, a, c, date, ty, ri⟩]) := by
  refine ⟨fun h1 => ?_, fun h1 h2 => ?_, fun h1 h2 h3 => ?_, fun h1 h2 h3 h4 => ?_,
    fun h1 h2 h3 h4 h5 h6 => ?_, fun out h => ?_⟩
  · rw [add_transaction, if_pos h1]
  · rw [add_transaction, if_neg (not_le.mpr h1), if_pos (by simp [h2])]
  · rw [add_transaction, if_neg (not_le.mpr h1), if_neg (by simp [h2]), if_pos h3]
  · rw [add_transaction, if_neg (not_le.mpr h1), if_neg (by simp [h2]),
      if_neg (not_le.mpr h3), if_pos (by simp [h4])]
  · rw [add_transaction, if_neg (not_le.mpr h1), if_neg (by simp [h2]),
      if_neg (not_le.mpr h3), if_neg (by simp [h4]), if_pos (by simp [h5, h6])]
  · rw [add_transaction] at h
    split at h
    · exact absurd h (by simp)
    · split at h
      · exact absurd h (by simp)
      · split at h
        · exact absurd h (by simp)
        · split at h
          · exact absurd h (by simp)
          · split at h
            · exact absurd h (by simp)
            · split at h
              · exact absurd h (by simp)
              · rename_i cat2 heq
                exact ⟨cat2, (Except.ok.inj h).symm⟩

/-- Witness for C8: with id 1, the demo description, amount 0 fails the
amount check; amount 0.01 succeeds and persists one row. -/
theorem add_transaction_validation_order_witness :
    add_transaction [] 1 1 "Groceries at Walmart" 0 "2024-01-15" "expense" (some "food") none =
      .error "Amount must be a positive number" ∧
    add_transaction [] 1 1 "Groceries at Walmart" ⟨1, 100, by decide, by decide⟩ "2024-01-15"
        "expense" (some "food") none =
      .ok [⟨1, 1, "Groceries at Walmart", ⟨1, 100, by decide, by decide⟩, "food", "2024-01-15",
        "expense", none⟩] :=
  ⟨(add_transaction_validation_order [] 1 1 "Groceries at Walmart" 0 "2024-01-15" "expense"
      (some "food") none).2.2.1 (by decide) (by decide) (by decide),
   by decide⟩

/-- Claim C10: a whitespace-only description passes the service's
non-emptiness check and is persisted unchanged when a non-empty category is
supplied, because the classifier is bypassed; the same description with no
category fails with the wrapped classification error. -/
theorem add_transaction_whitespace_desc (ledger : List Txn) (nextId : Nat) (user_id : Int)
    (d : String) (a : ℚ) (date ty cat : String) (ri : Option String)
    (hu : 0 < user_id) (hd : d ≠ "") (hw : normalizeDesc d = "") (ha : 0 < a)
    (hdate : validDate date = true) (hty : ty = "income" ∨ ty = "expense") (hcat : cat ≠ "") :
    add_transaction ledger nextId user_id d a date ty (some cat) ri =
      .ok (ledger ++ [⟨nextId, user_id, d, a, cat, date, ty, ri⟩]) ∧
    add_transaction ledger nextId user_id d a date ty none ri =
      .error
        "Failed to categorize transaction: Description cannot be empty after stripping whitespace" := by
  have hvalid : ∀ c : Option String,
      add_transaction ledger nextId user_id d a date ty c ri =
        match (if pyFalsy c then categorize (some d) (some a) else .ok (c.getD "")) with
        | .error e => .error ("Failed to categorize transaction: " ++ e)
        | .ok cat2 =>
            .ok (ledger ++ [⟨nextId, user_id, d, a, cat2, date, ty, ri⟩]) := by
    intro c
    rw [add_transaction, if_neg (not_le.mpr hu), if_neg (by simp [hd]),
      if_neg (not_le.mpr ha), if_neg (by simp [hdate]),
      if_neg (by rcases hty with h | h <;> simp [h])]
  constructor
  · rw [hvalid (some cat), if_neg (by simp [pyFalsy, hcat])]
    rfl
  · rw [hvalid none, if_pos (show pyFalsy none = true from rfl)]
    have hcl : categorize (some d) (some a) =
        .error "Description cannot be empty after stripping whitespace" := by
      simp only [categorize]
      rw [if_neg (not_le.mpr ha), if_pos hw]
    rw [hcl]
    rfl

/-- Witness for C10: the single-space description with category food is
persisted verbatim; without a category the call fails with the wrapped
classifier error. -/
theorem add_transaction_whitespace_desc_witness :
    add_transaction [] 1 1 " " 50 "2024-01-15" "expense" (some "food") none =
      .ok [⟨1, 1, " ", 50, "food", "2024-01-15", "expense", none⟩] ∧
    add_transaction [] 1 1 " " 50 "2024-01-15" "expense" none none =
      .error
        "Failed to categorize transaction: Description cannot be empty after stripping whitespace" :=
  ⟨(add_transaction_whitespace_desc [] 1 1 " " 50 "2024-01-15" "expense" "food" none
      (by decide) (by decide) (by decide) (by norm_num) (by decide) (Or.inr rfl)
      (by decide)).1,
   (add_transaction_whitespace_desc [] 1 1 " " 50 "2024-01-15" "expense" "food" none
      (by decide) (by decide) (by decide) (by norm_num) (by decide) (Or.inr rfl)
      (by decide)).2⟩

/-- Claim C9: deleting a stored transaction under a different owner id fails
with the not-found error, the ledger is unchanged, and the transaction is
still returned by a query scoped to its real owner. -/
theorem delete_transaction_wrong_owner (ledger : List Txn) (t : Txn) (user_id : Int)
    (ht : t ∈ ledger) (howner : user_id ≠ t.user_id)
    (hids : ∀ t2 ∈ ledger, t2.id = t.id → t2 = t) (hpos : 0 < t.user_id) :
    (delete_transaction ledger user_id t.id).1 = .error "Transaction not found" ∧
    (delete_transaction ledger user_id t.id).2 = ledger ∧
    ∃ rows, get_transactions (delete_transaction ledger user_id t.id).2 t.user_id
      none none none none = .ok rows ∧ t ∈ rows := by
  have hfilter : (ledger.filter fun t2 => t2.id == t.id && t2.user_id == user_id) = [] := by
    rw [List.filter_eq_nil_iff]
    intro t2 h2
    by_cases hid : t2.id = t.id
    · have h3 : t2 = t := hids t2 h2 hid
      subst h3
      simp [Ne.symm howner]
    · simp [hid]
  have hdel : delete_transaction ledger user_id t.id = (.error "Transaction not found", ledger) := by
    rw [delete_transaction, if_pos (by rw [hfilter]; rfl)]
  refine ⟨by rw [hdel], by rw [hdel], ?_⟩
  rw [hdel]
  refine ⟨ledger.filter (txnFilter t.user_id none none none none), ?_, ?_⟩
  · rw [get_transactions, if_neg (not_le.mpr hpos)]
    rfl
  · exact List.mem_filter.mpr ⟨ht, by simp [txnFilter, pyFalsy]⟩

/-- Witness for C9: owner 2 cannot delete owner 1's transaction and the
ledger is untouched. -/
theorem delete_transaction_wrong_owner_witness :
    (delete_transaction [⟨1, 1, "Groceries", 50, "food", "2024-01-15", "expense", none⟩] 2 1).1 =
      .error "Transaction not found" ∧
    (delete_transaction [⟨1, 1, "Groceries", 50, "food", "2024-01-15", "expense", none⟩] 2 1).2 =
      [⟨1, 1, "Groceries", 50, "food", "2024-01-15", "expense", none⟩] :=
  ⟨(delete_transaction_wrong_owner
      [⟨1, 1, "Groceries", 50, "food", "2024-01-15", "expense", none⟩]
      ⟨1, 1, "Groceries", 50, "food", "2024-01-15", "expense", none⟩ 2
      (by decide) (by decide) (by decide) (by decide)).1,
   (delete_transaction_wrong_owner
      [⟨1, 1, "Groceries", 50, "food", "2024-01-15", "expense", none⟩]
      ⟨1, 1, "Groceries", 50, "food", "2024-01-15", "expense", none⟩ 2
      (by decide) (by decide) (by decide) (by decide)).2.1⟩

/-- Claim C5: when the expense rows matching the owner and resolved range
are empty, `get_spending_insights` returns zero total spending with empty
(present) breakdown and trend containers, and no error. -/
theorem get_spending_insights_empty (ledger : List Txn) (user_id : Int) (dS dT : String)
    (s e : Option String) (h1 : 0 < user_id)
    (hs : validDate (resolveRange dS dT s e).1 = true)
    (he : validDate (resolveRange dS dT s e).2 = true)
    (hempty : ledger.filter (txnFilter user_id (some (resolveRange dS dT s e).1)
      (some (resolveRange dS dT s e).2) none (some "expense")) = []) :
    get_spending_insights ledger user_id dS dT s e = .ok ⟨0, [], []⟩ := by
  rw [get_spending_insights_ok ledger user_id dS dT s e [] (not_le.mpr h1)
    (by rw [get_transactions_expense_ok ledger user_id _ _ (not_le.mpr h1) hs he, hempty])]
  rfl

/-- Witness for C5: a ledger holding only an income row yields the empty
insight summary for its month. -/
theorem get_spending_insights_empty_witness :
    get_spending_insights [⟨1, 1, "Salary deposit", 2500, "general", "2025-09-15", "income", none⟩]
      1 "2025-09-01" "2025-09-30" none none = .ok ⟨0, [], []⟩ :=
  get_spending_insights_empty
    [⟨1, 1, "Salary deposit", 2500, "general", "2025-09-15", "income", none⟩]
    1 "2025-09-01" "2025-09-30" none none (by decide) (by decide) (by decide) (by decide)

/-- Counterexample for C6 as stated: on two expense rows of 0.006 each the
per-category totals round to 0.01 and sum to 0.02, while total_spending is
0.012 — the aggregate-level equality fails when amounts are finer than 2
decimal places. -/
theorem category_breakdown_subcent_cex :
    (get_spending_insights subcentLedger 1 "2024-01-01" "2024-01-31" none none).map
      (fun i => ((i.category_breakdown.map fun r => r.2.1).sum, i.total_spending)) =
      .ok (1/50, 3/250) ∧ (1/50 : ℚ) ≠ 3/250 := by
  constructor
  · rw [get_spending_insights_ok subcentLedger 1 "2024-01-01" "2024-01-31" none none
      subcentLedger (by decide) (by decide)]
    rw [if_neg (by decide)]
    simp only [Except.map, computeInsights]
    rw [show (subcentLedger.map Txn.category).dedup = ["a", "b"] from by decide]
    simp only [List.map_cons, List.map_nil]
    simp only [categorySum]
    rw [show List.filter (fun t => t.category == "a") subcentLedger =
        [⟨1, 1, "first item", subcentAmount, "a", "2024-01-05", "expense", none⟩] from by decide,
      show List.filter (fun t => t.category == "b") subcentLedger =
        [⟨2, 1, "second item", subcentAmount, "b", "2024-01-06", "expense", none⟩] from by decide]
    simp only [subcentLedger, List.map_cons, List.map_nil, List.sum_cons, List.sum_nil]
    rw [show subcentAmount = 3/500 from by
      rw [subcentAmount, Rat.mk'_eq_divInt, Rat.divInt_eq_div]; norm_num]
    norm_num [round2, rint]
  · norm_num

/-- Claim C6 as amended: on a non-empty expense set whose amounts are whole
cents (the DECIMAL(10,2) schema), every breakdown row carries the rounded
per-category sum (within 0.01 of the exact sum) and the row count,
total_spending is the un-rounded total, and the rounded per-category totals
sum to total_spending exactly. -/
theorem category_breakdown_sums (ledger : List Txn) (user_id : Int) (dS dT : String)
    (s e : Option String) (h1 : 0 < user_id)
    (hs : validDate (resolveRange dS dT s e).1 = true)
    (he : validDate (resolveRange dS dT s e).2 = true)
    (hcents : ∀ t ∈ ledger, ∃ n : ℤ, t.amount = n / 100) :
    ∀ df, df = ledger.filter (txnFilter user_id (some (resolveRange dS dT s e).1)
        (some (resolveRange dS dT s e).2) none (some "expense")) → df ≠ [] →
      get_spending_insights ledger user_id dS dT s e = .ok (computeInsights df) ∧
      (computeInsights df).total_spending = (df.map Txn.amount).sum ∧
      (∀ c tot cnt, (c, tot, cnt) ∈ (computeInsights df).category_breakdown →
        tot = round2 (categorySum c df) ∧ cnt = categoryCount c df ∧
        |tot - categorySum c df| ≤ 1 / 100) ∧
      ((computeInsights df).category_breakdown.map fun r => r.2.1).sum =
        (computeInsights df).total_spending := by
  intro df hdf hne
  have hdfc : ∀ t ∈ df, ∃ n : ℤ, t.amount = n / 100 := by
    intro t ht
    rw [hdf] at ht
    exact hcents t (List.mem_filter.mp ht).1
  have hcs : ∀ c, ∃ n : ℤ, categorySum c df = n / 100 := by
    intro c
    apply sum_cents
    intro q hq
    obtain ⟨t, ht, rfl⟩ := List.mem_map.mp hq
    exact hdfc t (List.mem_filter.mp ht).1
  refine ⟨?_, rfl, ?_, ?_⟩
  · rw [get_spending_insights_ok ledger user_id dS dT s e df (not_le.mpr h1)
      (by rw [get_transactions_expense_ok ledger user_id _ _ (not_le.mpr h1) hs he, ← hdf]),
      if_neg (by simp [hne])]
  · intro c tot cnt hmem
    simp only [computeInsights] at hmem
    obtain ⟨c0, hc0, heq⟩ := List.mem_map.mp hmem
    have h3 : c0 = c ∧ round2 (categorySum c0 df) = tot ∧ categoryCount c0 df = cnt := by
      simpa using heq
    obtain ⟨rfl, htot, hcnt⟩ := h3
    refine ⟨htot.symm, hcnt.symm, ?_⟩
    rw [← htot, round2_cents _ (hcs c0), sub_self, abs_zero]
    norm_num
  · simp only [computeInsights, List.map_map]
    have hcomp : ((fun (r : String × ℚ × Nat) => r.2.1) ∘
        fun c => (c, round2 (categorySum c df), categoryCount c df)) =
        fun c => round2 (categorySum c df) := rfl
    rw [hcomp]
    have hpt : ((df.map Txn.category).dedup).map (fun c => round2 (categorySum c df)) =
        ((df.map Txn.category).dedup).map fun c => categorySum c df :=
      List.map_congr_left fun c hc => round2_cents _ (hcs c)
    rw [hpt]
    exact sum_categorySum df _ (List.nodup_dedup _)
      fun t ht => List.mem_dedup.mpr (List.mem_map_of_mem Txn.category ht)

/-- Witness for the amended C6: one whole-cent expense row; the insight call
returns its aggregation and the rounded rows sum to the exact total. -/
theorem category_breakdown_sums_witness :
    get_spending_insights [⟨1, 1, "Dinner at restaurant", 65, "food", "2025-09-01", "expense",
        none⟩] 1 "2025-09-01" "2025-09-30" none none =
      .ok (computeInsights [⟨1, 1, "Dinner at restaurant", 65, "food", "2025-09-01", "expense",
        none⟩]) ∧
    ((computeInsights [⟨1, 1, "Dinner at restaurant", 65, "food", "2025-09-01", "expense",
        none⟩]).category_breakdown.map fun r => r.2.1).sum =
      (computeInsights [⟨1, 1, "Dinner at restaurant", 65, "food", "2025-09-01", "expense",
        none⟩]).total_spending := by
  have h := category_breakdown_sums
    [⟨1, 1, "Dinner at restaurant", 65, "food", "2025-09-01", "expense", none⟩]
    1 "2025-09-01" "2025-09-30" none none (by decide) (by decide) (by decide)
    (by
      intro t ht
      rw [List.mem_singleton] at ht
      subst ht
      exact ⟨6500, by norm_num⟩)
    [⟨1, 1, "Dinner at restaurant", 65, "food", "2025-09-01", "expense", none⟩]
    (by decide) (by decide)
  exact ⟨h.1, h.2.2.2⟩

end FinanApp
